import Mathlib

/-!
Verification of the database access layer of the jimaku repository
(src/database.rs): the connection-pool bridge, its typed query helpers, the
update-query builder, the key-value storage helpers, the startup protocol of
DatabaseBuilder.open, the shutdown path of Drop for Database, and the
transaction wrapper.  Rust functions are shallowly embedded as Lean functions;
the outcomes of the third-party SQL engine (rusqlite) and of the channels
(crossbeam, tokio) enter as explicit parameters or are modelled from their
documented semantics, as stated in each doc comment.
-/

set_option autoImplicit false

namespace Jimaku

/-- Error type of the embedded SQL engine (rusqlite::Error): the only
constructor the database layer inspects by name is the query-returned-no-rows
case; every other error is carried opaquely by a numeric code. -/
inductive SqlError where
  | queryReturnedNoRows : SqlError
  | other : Nat → SqlError
deriving DecidableEq, Repr

/-- Result type rusqlite::Result<A>. -/
abbrev SqlResult (α : Type) := Except SqlError α

deriving instance DecidableEq for Except

/-! ## Table::update_query (src/database.rs lines 29-47) -/

namespace Table

/-- Loop of Table::update_query from src/database.rs: for each column the
separator is appended first (the Rust first flag), then the column is appended
when it is in the COLUMNS whitelist; a column outside the whitelist panics,
modelled as none, discarding the query built so far. -/
def updateQueryLoop (COLUMNS : List String) : List String → String → Bool → Option String
  | [], query, _ => some (query ++ " WHERE id = ?")
  | column :: rest, query, first =>
    let query := if first then query else query ++ ", "
    if COLUMNS.contains column then
      updateQueryLoop COLUMNS rest (query ++ column ++ " = ?") false
    else
      none

/-- Table::update_query from src/database.rs: builds the UPDATE statement for
the table called NAME, starting from the literal prefix and running the column
loop; none models the panic on a column missing from COLUMNS. -/
def update_query (NAME : String) (COLUMNS : List String) (columns : List String) : Option String :=
  updateQueryLoop COLUMNS columns ("UPDATE " ++ NAME ++ " SET ") true

/-- Clause c1 = ?, c2 = ?, ... with the given columns in the given order,
written the way the spec words it (for comparison with update_query). -/
def setClauseSpec : List String → String
  | [] => ""
  | [c] => c ++ " = ?"
  | c :: c2 :: rest => c ++ " = ?, " ++ setClauseSpec (c2 :: rest)

/-- Statement UPDATE {NAME} SET c1 = ?, c2 = ?, ... WHERE id = ? exactly as the
spec words it (for comparison with update_query). -/
def updateQuerySpec (NAME : String) (columns : List String) : String :=
  "UPDATE " ++ NAME ++ " SET " ++ setClauseSpec columns ++ " WHERE id = ?"

/-- Set clause as the loop accumulates it: the flag records whether the next
column is the first one (no separator before it). -/
def setClauseAux : Bool → List String → String
  | _, [] => ""
  | true, c :: rest => c ++ " = ?" ++ setClauseAux false rest
  | false, c :: rest => ", " ++ (c ++ " = ?" ++ setClauseAux false rest)

theorem sep_merge (x : String) : " = ?" ++ (", " ++ x) = " = ?, " ++ x := by
  rw [← String.append_assoc]
  rfl

theorem setClauseAux_false_cons (rest : List String) :
    ∀ c : String, setClauseAux false (c :: rest) = ", " ++ setClauseSpec (c :: rest) := by
  induction rest with
  | nil =>
    intro c
    simp [setClauseAux, setClauseSpec, String.append_empty]
  | cons c2 rest2 ih =>
    intro c
    show ", " ++ (c ++ " = ?" ++ setClauseAux false (c2 :: rest2)) = _
    rw [ih c2]
    simp only [setClauseSpec, String.append_assoc, sep_merge]

theorem setClauseAux_true_eq (cols : List String) :
    setClauseAux true cols = setClauseSpec cols := by
  cases cols with
  | nil => rfl
  | cons c rest =>
    cases rest with
    | nil => simp [setClauseAux, setClauseSpec, String.append_empty]
    | cons c2 rest2 =>
      show c ++ " = ?" ++ setClauseAux false (c2 :: rest2) = _
      rw [setClauseAux_false_cons]
      simp only [setClauseSpec, String.append_assoc, sep_merge]

theorem updateQueryLoop_all_mem (COLUMNS : List String) (cols : List String) :
    ∀ (q : String) (first : Bool), (∀ c ∈ cols, COLUMNS.contains c) →
      updateQueryLoop COLUMNS cols q first =
        some (q ++ setClauseAux first cols ++ " WHERE id = ?") := by
  induction cols with
  | nil =>
    intro q first _
    simp [updateQueryLoop, setClauseAux, String.append_empty]
  | cons c rest ih =>
    intro q first h
    have hc : COLUMNS.contains c := h c (List.mem_cons_self c rest)
    have hrest : ∀ x ∈ rest, COLUMNS.contains x := fun x hx => h x (List.mem_cons_of_mem c hx)
    cases first with
    | true =>
      simp only [updateQueryLoop, if_pos hc, if_true]
      rw [ih _ false hrest]
      simp [setClauseAux, String.append_assoc]
    | false =>
      simp only [updateQueryLoop, if_pos hc]
      rw [ih _ false hrest]
      simp [setClauseAux, String.append_assoc]

theorem updateQueryLoop_bad_col (COLUMNS : List String) (cols : List String) :
    ∀ (q : String) (first : Bool), (∃ c ∈ cols, ¬ COLUMNS.contains c) →
      updateQueryLoop COLUMNS cols q first = none := by
  induction cols with
  | nil =>
    intro q first h
    obtain ⟨c, hc, _⟩ := h
    exact absurd hc (List.not_mem_nil c)
  | cons c rest ih =>
    intro q first h
    by_cases hc : COLUMNS.contains c = true
    · obtain ⟨x, hx, hxc⟩ := h
      rcases List.mem_cons.mp hx with rfl | hxr
      · exact absurd hc hxc
      · simp only [updateQueryLoop, if_pos hc]
        exact ih _ false ⟨x, hxr, hxc⟩
    · simp only [updateQueryLoop, if_neg hc]

/-- For claim C4: for every list of columns, each listed column is either in
COLUMNS or the whole call panics; on the all-whitelisted side the result is
exactly the UPDATE statement of the spec. -/
theorem update_query_characterisation (NAME : String) (COLUMNS : List String)
    (columns : List String) :
    ((∀ c ∈ columns, c ∈ COLUMNS) →
      update_query NAME COLUMNS columns = some (updateQuerySpec NAME columns))
    ∧ ((∃ c ∈ columns, c ∉ COLUMNS) → update_query NAME COLUMNS columns = none) := by
  constructor
  · intro h
    have h2 : ∀ c ∈ columns, COLUMNS.contains c := by
      intro c hc
      exact (List.elem_iff).mpr (h c hc)
    rw [update_query, updateQueryLoop_all_mem COLUMNS columns _ true h2,
      setClauseAux_true_eq]
    simp [updateQuerySpec, String.append_assoc]
  · intro h
    obtain ⟨c, hc, hnc⟩ := h
    apply updateQueryLoop_bad_col
    exact ⟨c, hc, fun hcont => hnc ((List.elem_iff).mp hcont)⟩

/-- Witness for C4 at concrete inputs: with the columns of the repo test table
the builder yields exactly the expected UPDATE statement, and a column outside
COLUMNS panics. -/
theorem update_query_characterisation_witness :
    update_query "foo" ["id", "name", "age"] ["name", "age"] =
      some "UPDATE foo SET name = ?, age = ? WHERE id = ?"
    ∧ update_query "foo" ["id", "name", "age"] ["typo"] = none := by
  constructor
  · have h := (update_query_characterisation "foo" ["id", "name", "age"]
      ["name", "age"]).1 (by decide)
    rw [h]
    decide
  · exact (update_query_characterisation "foo" ["id", "name", "age"] ["typo"]).2
      ⟨"typo", by decide, by decide⟩

end Table

/-! ## Query helpers (src/database.rs lines 207-332)

The helpers run inside Database::call on a Worker connection.  The third-party
statement machinery (rusqlite) is split into two explicit outcomes handed to
each helper: prepare, the result of Connection::prepare_cached, and exec, the
result of executing the prepared statement, which on success yields the ordered
list of result rows.  Row conversion closures are passed as functions. -/

namespace Database

/-- Statement::query_row of rusqlite, modelled per its documented semantics:
the first result row mapped through f, the QueryReturnedNoRows error when the
result set is empty, or the execution error. -/
def query_row {Row T : Type} (exec : SqlResult (List Row)) (f : Row → SqlResult T) :
    SqlResult T :=
  match exec with
  | .error e => .error e
  | .ok [] => .error .queryReturnedNoRows
  | .ok (r :: _) => f r

/-- Collecting the MappedRows iterator of Statement::query_map into
rusqlite::Result of Vec: rows mapped in order, stopping at the first
conversion error. -/
def collectRows {Row T : Type} (f : Row → SqlResult T) : List Row → SqlResult (List T)
  | [] => .ok []
  | r :: rest =>
    match f r with
    | .error e => .error e
    | .ok v =>
      match collectRows f rest with
      | .error e => .error e
      | .ok vs => .ok (v :: vs)

/-- Database::get from src/database.rs lines 207-223: prepare the statement,
run query_row, and map the empty-result error to Ok(None). -/
def get {Row T : Type} (prepare : SqlResult Unit) (exec : SqlResult (List Row))
    (from_row : Row → SqlResult T) : SqlResult (Option T) :=
  match prepare with
  | .error e => .error e
  | .ok _ =>
    match query_row exec from_row with
    | .ok value => .ok (some value)
    | .error .queryReturnedNoRows => .ok none
    | .error e => .error e

/-- Database::get_by_id from src/database.rs lines 244-259: the query is the
fixed SELECT by id; the body repeats the match of Database::get. -/
def get_by_id {Row T : Type} (prepare : SqlResult Unit) (exec : SqlResult (List Row))
    (from_row : Row → SqlResult T) : SqlResult (Option T) :=
  match prepare with
  | .error e => .error e
  | .ok _ =>
    match query_row exec from_row with
    | .ok value => .ok (some value)
    | .error .queryReturnedNoRows => .ok none
    | .error e => .error e

/-- Database::get_row from src/database.rs lines 228-241: prepare the statement
and return the query_row result unchanged — no special case for the
empty-result error. -/
def get_row {Row R : Type} (prepare : SqlResult Unit) (exec : SqlResult (List Row))
    (func : Row → SqlResult R) : SqlResult R :=
  match prepare with
  | .error e => .error e
  | .ok _ => query_row exec func

/-- Database::all from src/database.rs lines 264-281: prepare, then match on
query_map — on success collect the mapped rows; the source also keeps a (dead)
arm turning the QueryReturnedNoRows error into an empty vector. -/
def all {Row T : Type} (prepare : SqlResult Unit) (exec : SqlResult (List Row))
    (from_row : Row → SqlResult T) : SqlResult (List T) :=
  match prepare with
  | .error e => .error e
  | .ok _ =>
    match exec with
    | .ok rows => collectRows from_row rows
    | .error .queryReturnedNoRows => .ok []
    | .error e => .error e

/-- Database::get_from_storage from src/database.rs lines 301-318: the inner
closure prepares and runs the fixed SELECT on the storage table, mapping the
empty result to Ok(None); the caller then applies .ok().flatten(), collapsing
every error into None. -/
def get_from_storage {Row T : Type} (prepare : SqlResult Unit)
    (exec : SqlResult (List Row)) (decode : Row → SqlResult T) : Option T :=
  let inner : SqlResult (Option T) :=
    match prepare with
    | .error e => .error e
    | .ok _ =>
      match query_row exec decode with
      | .ok value => .ok (some value)
      | .error .queryReturnedNoRows => .ok none
      | .error e => .error e
  match inner with
  | .ok v => v
  | .error _ => none

/-- Modelled from the spec: the storage table schema is created by sql
migration files referenced from main.rs but absent from the given sources; per
the spec it is a two-column (name, value) key-value table, embedded here as a
list of name-value rows. -/
abbrev StorageTable (V : Type) := List (String × V)

/-- Modelled from the spec (SQL UPDATE semantics of the embedded engine): the
statement UPDATE storage SET value = ? WHERE name = ? replaces the value of
every row whose name equals the key; matching zero rows changes nothing and is
not an error. -/
def sqlUpdateStorage {V : Type} (table : StorageTable V) (key : String) (value : V) :
    StorageTable V :=
  table.map (fun row => if row.1 = key then (row.1, value) else row)

/-- Database::update_storage from src/database.rs lines 321-332: prepare the
fixed UPDATE statement, execute it (the affected-row count is discarded), and
return Ok(()).  The resulting table is returned alongside the call result. -/
def update_storage {V : Type} (prepare : SqlResult Unit) (table : StorageTable V)
    (key : String) (value : V) : StorageTable V × SqlResult Unit :=
  match prepare with
  | .error e => (table, .error e)
  | .ok _ => (sqlUpdateStorage table key value, .ok ())

end Database

/-- For claim C5: a query that runs and matches zero rows makes get and
get_by_id return Ok(None) and all return Ok of the empty vector — never an
error. -/
theorem empty_result_is_ok {Row T : Type} (from_row : Row → SqlResult T) :
    Database.get (.ok ()) (.ok ([] : List Row)) from_row = .ok none
    ∧ Database.get_by_id (.ok ()) (.ok ([] : List Row)) from_row = .ok none
    ∧ Database.all (.ok ()) (.ok ([] : List Row)) from_row = .ok [] :=
  ⟨rfl, rfl, rfl⟩

/-- For claim C9: on a query matching zero rows, get_row surfaces the
underlying QueryReturnedNoRows error, while get maps the same outcome to
Ok(None) — get_row has no empty-result special case. -/
theorem get_row_empty_is_error {Row R T : Type} (func : Row → SqlResult R)
    (from_row : Row → SqlResult T) :
    Database.get_row (.ok ()) (.ok ([] : List Row)) func = .error .queryReturnedNoRows
    ∧ Database.get (.ok ()) (.ok ([] : List Row)) from_row = .ok none :=
  ⟨rfl, rfl⟩

/-- For claim C6: get_from_storage returns none on every error path — failed
prepare, failed statement execution, key not found (empty result set), and
value decode failure all collapse into none; the return type surfaces no
error. -/
theorem get_from_storage_errors_to_none {Row T : Type} (e : SqlError)
    (exec : SqlResult (List Row)) (decode : Row → SqlResult T) (r : Row)
    (rows : List Row) :
    Database.get_from_storage (.error e) exec decode = none
    ∧ Database.get_from_storage (.ok ()) (.error e : SqlResult (List Row)) decode = none
    ∧ Database.get_from_storage (.ok ()) (.ok ([] : List Row)) decode = none
    ∧ (decode r = .error e →
        Database.get_from_storage (.ok ()) (.ok (r :: rows)) decode = none) := by
  refine ⟨rfl, ?_, rfl, ?_⟩
  · cases e <;> rfl
  · intro h
    cases e <;> simp [Database.get_from_storage, Database.query_row, h]

/-- Witness for C6 at concrete inputs: a decode function that always fails
makes get_from_storage return none on a nonempty result set. -/
theorem get_from_storage_errors_to_none_witness :
    Database.get_from_storage (.ok ()) (.ok [()])
      (fun _ : Unit => (.error (.other 0) : SqlResult Nat)) = none :=
  (get_from_storage_errors_to_none (.other 0) (.ok []) (fun _ => .error (.other 0))
    () []).2.2.2 rfl

/-- For claim C10: update_storage on a key with no matching row returns Ok(())
and leaves the table unchanged, and for every table it never creates a new key
(the name column is preserved row for row) and never touches a row whose name
differs from the key. -/
theorem update_storage_frame {V : Type} (table : Database.StorageTable V) (key : String)
    (value : V) (hmiss : ∀ row ∈ table, row.1 ≠ key) :
    Database.update_storage (.ok ()) table key value = (table, .ok ())
    ∧ (∀ t : Database.StorageTable V,
        (Database.update_storage (.ok ()) t key value).1.map Prod.fst = t.map Prod.fst)
    ∧ (∀ t : Database.StorageTable V, ∀ row ∈ t, row.1 ≠ key →
        row ∈ (Database.update_storage (.ok ()) t key value).1) := by
  refine ⟨?_, ?_, ?_⟩
  · simp only [Database.update_storage, Database.sqlUpdateStorage]
    rw [Prod.mk.injEq]
    refine ⟨?_, rfl⟩
    conv_rhs => rw [← List.map_id table]
    apply List.map_congr_left
    intro row hrow
    simp [hmiss row hrow]
  · intro t
    simp only [Database.update_storage, Database.sqlUpdateStorage, List.map_map]
    apply List.map_congr_left
    intro row _
    by_cases h : row.1 = key <;> simp [h]
  · intro t row hrow hne
    simp only [Database.update_storage, Database.sqlUpdateStorage]
    have : (if row.1 = key then (row.1, value) else row) = row := by simp [hne]
    rw [← this]
    exact List.mem_map_of_mem _ hrow

/-- Witness for C10 at concrete inputs: updating the absent key c leaves a
two-row table unchanged and reports Ok. -/
theorem update_storage_frame_witness :
    Database.update_storage (.ok ()) [("a", 1), ("b", 2)] "c" (9 : Nat) =
      ([("a", 1), ("b", 2)], .ok ()) :=
  (update_storage_frame [("a", 1), ("b", 2)] "c" 9 (by decide)).1

/-! ## Database::transaction (src/database.rs lines 284-296, 477-528)

Database::transaction opens a rusqlite transaction, wraps it in the opaque
Transaction handle and hands it to the closure by value; the wrapper itself
never commits.  The handle only exposes the inner rusqlite transaction through
Deref and DerefMut, so the closure cannot call commit, rollback or finish
(they take the inner transaction by value and the field is private); the only
route to a commit is rusqlite set_drop_behavior through DerefMut, the default
drop behavior being rollback.  A closure is embedded as the list of actions it
performs on the handle plus the value it returns. -/

/-- Action a closure can perform on the Transaction handle: execute a write
statement inside the transaction, or flip the rusqlite drop behavior (true
means DropBehavior::Commit, the initial value is false, rollback). -/
inductive TxAction (W : Type) where
  | write (w : W)
  | setDropBehavior (commit : Bool)

/-- Closure passed to Database::transaction: the actions it performs on the
handle, in order, and the result it returns. -/
structure TxClosure (W R : Type) where
  actions : List (TxAction W)
  result : SqlResult R

/-- Effect of the closure body on the open transaction: writes accumulate as
pending statements of the transaction; setDropBehavior replaces the drop flag. -/
def runTxActions {W : Type} : List (TxAction W) → List W × Bool → List W × Bool
  | [], st => st
  | .write w :: rest, (pending, flag) => runTxActions rest (pending ++ [w], flag)
  | .setDropBehavior b :: rest, (pending, _) => runTxActions rest (pending, b)

/-- Drop flag of the transaction when the closure returns: true only when the
closure explicitly switched the drop behavior to commit. -/
def TxClosure.explicitCommit {W R : Type} (c : TxClosure W R) : Bool :=
  (runTxActions c.actions ([], false)).2

/-- Database::transaction from src/database.rs: open the transaction (the
question-mark on conn.transaction is the begin outcome), run the closure, then
drop the handle — per rusqlite drop semantics the pending writes reach the
database only when the drop flag was switched to commit, otherwise the
transaction is rolled back.  applyWrite is the effect of one write statement on
the database state. -/
def Database.transaction {Db W R : Type} (applyWrite : Db → W → Db) (db : Db)
    (begin : SqlResult Unit) (c : TxClosure W R) : Db × SqlResult R :=
  match begin with
  | .error e => (db, .error e)
  | .ok _ =>
    let st := runTxActions c.actions ([], false)
    (if st.2 then st.1.foldl applyWrite db else db, c.result)

/-- Counterexample to claim C1 as stated: a closure that performs a write,
switches the drop behavior to commit and returns Err leaves the database
changed — the commit is not tied to the closure returning Ok, and an Err after
writes does not imply the database is unchanged. -/
theorem transaction_commit_despite_err :
    Database.transaction (fun (d : List Nat) w => d ++ [w]) [] (.ok ())
        (⟨[.write 1, .setDropBehavior true], .error (.other 3)⟩ : TxClosure Nat Unit) =
      ([1], .error (.other 3))
    ∧ ([1] : List Nat) ≠ [] := by
  exact ⟨rfl, by decide⟩

/-- For claim C1 as amended: the transaction is committed only if the closure
explicitly switched the drop behavior to commit; every closure that does not —
in particular one that performs writes and returns Err — leaves the database
unchanged from before the transaction started, whatever it returns. -/
theorem transaction_rolls_back_without_commit {Db W R : Type}
    (applyWrite : Db → W → Db) (db : Db) (begin : SqlResult Unit)
    (c : TxClosure W R) (h : c.explicitCommit = false) :
    (Database.transaction applyWrite db begin c).1 = db := by
  unfold Database.transaction
  cases begin with
  | error e => rfl
  | ok _ =>
    simp only
    rw [TxClosure.explicitCommit] at h
    rw [h]
    simp

/-- Witness for the amended C1: a closure that inserts a row and returns Err
without touching the drop behavior leaves the database unchanged. -/
theorem transaction_rolls_back_without_commit_witness :
    (Database.transaction (fun (d : List Nat) w => d ++ [w]) [5] (.ok ())
      (⟨[.write 1], .error (.other 3)⟩ : TxClosure Nat Unit)).1 = [5] :=
  transaction_rolls_back_without_commit (fun d w => d ++ [w]) [5] (.ok ())
    (⟨[.write 1], .error (.other 3)⟩ : TxClosure Nat Unit) rfl

/-! ## Worker handles and Drop for Database (src/database.rs lines 335-352, 360-446) -/

/-- Observable state of a Worker thread handle (std::thread::JoinHandle) at
drop time: whether the thread has already returned, and whether joining it
reports a panic. -/
structure ThreadHandle where
  finished : Bool
  panicked : Bool
deriving DecidableEq, Repr

/-- Worker from src/database.rs lines 360-363: an id and an optional thread
handle (taken by terminate). -/
structure Worker where
  id : Nat
  thread : Option ThreadHandle
deriving DecidableEq, Repr

/-- Worker::is_finished from src/database.rs lines 440-445. -/
def Worker.is_finished (w : Worker) : Bool :=
  match w.thread with
  | some t => t.finished
  | none => true

/-- Worker::terminate from src/database.rs lines 429-438: take the handle and
join it; a join error (the thread panicked) is logged and swallowed.  Returns
the worker with the handle taken, together with whether a panic was logged. -/
def Worker.terminate (w : Worker) : Worker × Bool :=
  match w.thread with
  | some t => ({ w with thread := none }, t.panicked)
  | none => (w, false)

/-- Drop for Database from src/database.rs lines 335-352: the first loop sends
one Terminate message for every worker whose thread has not finished (counted
here); the second loop calls terminate on every worker.  The outcome is the
number of Terminate messages enqueued and the joined workers with their
logged-panic flags; the drop itself cannot fail. -/
def dropDatabase (workers : List Worker) : Nat × List (Worker × Bool) :=
  let terminates := workers.foldl (fun acc w => if w.is_finished then acc else acc + 1) 0
  (terminates, workers.map Worker.terminate)

theorem foldl_count_not_finished (workers : List Worker) :
    ∀ acc : Nat, workers.foldl (fun acc w => if w.is_finished then acc else acc + 1) acc =
      acc + (workers.filter (fun w => !w.is_finished)).length := by
  induction workers with
  | nil => intro acc; simp
  | cons w rest ih =>
    intro acc
    cases h : w.is_finished
    all_goals simp [List.foldl_cons, List.filter_cons, h, ih]
    all_goals try omega

/-- For claim C7: dropping the Database enqueues exactly one Terminate per
worker whose thread has not already exited, then joins every worker (each
resulting worker has its handle taken, panicked or not), and the per-worker
panic flag is merely logged — the outcome carries no error, so shutdown always
completes. -/
theorem drop_terminates_and_joins_all (workers : List Worker) :
    (dropDatabase workers).1 = (workers.filter (fun w => !w.is_finished)).length
    ∧ (dropDatabase workers).2.length = workers.length
    ∧ (∀ p ∈ (dropDatabase workers).2, p.1.thread = none) := by
  refine ⟨?_, by simp [dropDatabase], ?_⟩
  · simpa using foldl_count_not_finished workers 0
  · intro p hp
    simp only [dropDatabase, List.mem_map] at hp
    obtain ⟨w, _, rfl⟩ := hp
    cases hw : w.thread <;> simp [Worker.terminate, hw]

/-! ## Dispatch channel and Worker serving loop (src/database.rs lines 55-58, 169-183, 412-420)

Database::call creates a fresh tokio oneshot channel per job, wraps the user
closure so that its single send on that channel is the only reply, and pushes
one Message::Call onto the crossbeam channel; per the crossbeam contract each
message is consumed by exactly one Worker.  The job identity below stands for
the oneshot channel; the hypothesis that an identity is dispatched at most once
across the workers embeds the freshness of the channel plus the exactly-once
consumption of the message. -/

/-- Message from src/database.rs lines 55-58: a call carries the job identity
(its oneshot reply channel) and the wrapped closure; the closure returns the
updated connection and the reply value, or none when the user closure panics
(the worker thread then unwinds without replying). -/
inductive PoolMessage (σ ρ : Type) where
  | call (jobId : Nat) (func : σ → Option (σ × ρ))
  | terminate

/-- Serving loop of the Worker thread (src/database.rs lines 412-420): process
messages in order; a call runs its closure and its reply event is recorded; a
panicking closure kills the thread so the remaining messages are never
processed; terminate breaks the loop.  Returns the reply events (job identity,
value) in order. -/
def workerLoop {σ ρ : Type} : σ → List (PoolMessage σ ρ) → List (Nat × ρ)
  | _, [] => []
  | conn, .call jobId func :: rest =>
    match func conn with
    | some (c, r) => (jobId, r) :: workerLoop c rest
    | none => []
  | _, .terminate :: _ => []

/-- Number of call messages for job j in a message list. -/
def callsFor {σ ρ : Type} (j : Nat) (msgs : List (PoolMessage σ ρ)) : Nat :=
  msgs.countP (fun m => match m with
    | .call i _ => i == j
    | .terminate => false)

/-- Number of reply events delivered for job j. -/
def repliesFor {ρ : Type} (j : Nat) (events : List (Nat × ρ)) : Nat :=
  events.countP (fun q => q.1 == j)

theorem workerLoop_replies_le_calls {σ ρ : Type} (j : Nat) :
    ∀ (msgs : List (PoolMessage σ ρ)) (conn : σ),
      repliesFor j (workerLoop conn msgs) ≤ callsFor j msgs := by
  intro msgs
  induction msgs with
  | nil => intro conn; simp [workerLoop, repliesFor, callsFor]
  | cons m rest ih =>
    intro conn
    cases m with
    | call jobId func =>
      cases h : func conn with
      | none =>
        simp only [workerLoop, h, repliesFor, callsFor, List.countP_nil, List.countP_cons]
        omega
      | some p =>
        simp only [workerLoop, h, repliesFor, callsFor, List.countP_cons]
        have := ih p.1
        simp only [repliesFor, callsFor] at this
        omega
    | terminate =>
      simp only [workerLoop, repliesFor, callsFor, List.countP_nil, List.countP_cons]
      omega

/-- For claim C8: if the oneshot identity of a job occurs at most once among
all the messages dispatched to the workers (freshness of the reply channel plus
exactly-once consumption of the dispatch channel), then across every worker at
most one reply event for that job is produced — the awaiting caller receives
zero or one reply, never two. -/
theorem at_most_one_reply {σ ρ : Type} (j : Nat)
    (workers : List (σ × List (PoolMessage σ ρ)))
    (hdispatch : (workers.map (fun p => callsFor j p.2)).sum ≤ 1) :
    (workers.map (fun p => repliesFor j (workerLoop p.1 p.2))).sum ≤ 1 := by
  refine le_trans (List.sum_le_sum ?_) hdispatch
  intro p _
  exact workerLoop_replies_le_calls j p.2 p.1

/-- Witness for C8 at concrete inputs: one worker receives the single call
message of job 5 and produces exactly one reply event for it. -/
theorem at_most_one_reply_witness :
    (([((0 : Nat), [PoolMessage.call 5 (fun c => some (c, (42 : Nat)))])].map
      (fun p => repliesFor 5 (workerLoop p.1 p.2))).sum ≤ 1) :=
  at_most_one_reply 5 [(0, [PoolMessage.call 5 (fun c => some (c, 42))])]
    (by simp [callsFor])

/-! ## DatabaseBuilder::open (src/database.rs lines 112-148, 366-427)

The startup of each Worker thread is scripted by the outcomes of its
rusqlite Connection::open call and of the configured init function on its
connection.  Each worker sends exactly one startup report on the buffered mpsc
channel (capacity equals the pool size, so blocking_send never blocks, and the
receiver is alive for the whole of open, so the send succeeds); the reports
reach the recv loop of open in an arbitrary scheduler order, modelled by the
arrival list of worker indices.  The recv loop reads reports until it sees the
first error — which it returns — or until the channel closes after all workers
reported.  Crucially, the Database value is constructed before the recv loop,
so the early return on error drops it: Drop for Database then sends one
Terminate per worker whose thread is still running (workers that failed
startup have already returned) and joins every worker thread; each serving
worker dequeues one of those Terminate messages and breaks out of its loop, so
the joins complete and no worker thread is left alive. -/

/-- Script of one Worker startup environment: the outcome of opening its
connection at the configured path and the outcome of running the configured
init function on it. -/
structure WorkerScript where
  connOpen : SqlResult Unit
  initResult : SqlResult Unit
deriving DecidableEq, Repr

/-- Phase a Worker thread is in once its startup (and any later Terminate
handling) is accounted for. -/
inductive WorkerPhase where
  | failedOpen
  | failedInit
  | serving
  | stopped
deriving DecidableEq, Repr

/-- The thread is still running exactly in the serving phase; a worker that
failed startup has returned, and a stopped worker has exited its loop. -/
def WorkerPhase.alive : WorkerPhase → Bool
  | .serving => true
  | _ => false

/-- A serving worker that dequeues a Terminate message breaks out of its loop
(src/database.rs line 418) and its thread exits; other phases already ended. -/
def phaseAfterTerminate : WorkerPhase → WorkerPhase
  | .serving => .stopped
  | p => p

/-- Startup part of the Worker thread body (Worker::new, src/database.rs lines
373-421): open the connection; on failure report the error and return.  When an
init function is configured, run it exactly once; on failure report the error
and return.  Otherwise report Ok and fall through into the serving loop.
Returns the report sent, the number of times the init function ran, and the
phase the thread is left in. -/
def workerStartup (hasInit : Bool) (s : WorkerScript) :
    SqlResult Unit × Nat × WorkerPhase :=
  match s.connOpen with
  | .error e => (.error e, 0, .failedOpen)
  | .ok _ =>
    if hasInit then
      match s.initResult with
      | .error e => (.error e, 1, .failedInit)
      | .ok _ => (.ok (), 1, .serving)
    else (.ok (), 0, .serving)

/-- Startup report a worker sends on the result channel. -/
def startupReport (hasInit : Bool) (s : WorkerScript) : SqlResult Unit :=
  (workerStartup hasInit s).1

/-- Recv loop of open (src/database.rs lines 140-145): read reports in arrival
order; on the first error stop and return it, otherwise read until the channel
is exhausted.  Returns how many reports were read and the first error, if
any. -/
def recvLoop : List (SqlResult Unit) → Nat × Option SqlError
  | [] => (0, none)
  | .ok _ :: rest => ((recvLoop rest).1 + 1, (recvLoop rest).2)
  | .error e :: _ => (1, some e)

/-- Reports of all the workers, in worker order. -/
def openReports (hasInit : Bool) (scripts : List WorkerScript) : List (SqlResult Unit) :=
  scripts.map (startupReport hasInit)

/-- Reports as they arrive on the mpsc channel, in scheduler order. -/
def openArrived (hasInit : Bool) (scripts : List WorkerScript) (arrival : List Nat) :
    List (SqlResult Unit) :=
  arrival.filterMap (fun i => (openReports hasInit scripts).get? i)

/-- Phases of all the worker threads once startup has completed. -/
def openPhases (hasInit : Bool) (scripts : List WorkerScript) : List WorkerPhase :=
  scripts.map (fun s => (workerStartup hasInit s).2.2)

/-- Number of workers that entered the serving loop. -/
def servingTally (hasInit : Bool) (scripts : List WorkerScript) : Nat :=
  ((openPhases hasInit scripts).filter WorkerPhase.alive).length

/-- Observable outcome of DatabaseBuilder::open. -/
structure OpenOutcome where
  result : SqlResult Unit
  spawned : Nat
  initRuns : List Nat
  reportsRead : Nat
  terminatesSent : Nat
  phases : List WorkerPhase
deriving DecidableEq, Repr

/-- Number of worker threads still running when open returns. -/
def OpenOutcome.aliveAfter (o : OpenOutcome) : Nat :=
  (o.phases.filter WorkerPhase.alive).length

/-- DatabaseBuilder::open from src/database.rs lines 112-148: spawn one Worker
per configured connection, then drain the startup reports.  On the first error
report, open returns Err — and, the Database value having been constructed
before the loop, drops it, which enqueues one Terminate per still-running
worker and joins every worker thread (Drop for Database, lines 335-352), so
every serving worker exits.  With no error, open returns the handle after all
reports are read, the workers still serving. -/
def openDB (hasInit : Bool) (scripts : List WorkerScript) (arrival : List Nat) :
    OpenOutcome :=
  { result :=
      match (recvLoop (openArrived hasInit scripts arrival)).2 with
      | some e => .error e
      | none => .ok ()
    spawned := scripts.length
    initRuns := scripts.map (fun s => (workerStartup hasInit s).2.1)
    reportsRead := (recvLoop (openArrived hasInit scripts arrival)).1
    terminatesSent :=
      match (recvLoop (openArrived hasInit scripts arrival)).2 with
      | some _ => servingTally hasInit scripts
      | none => 0
    phases :=
      match (recvLoop (openArrived hasInit scripts arrival)).2 with
      | some _ => (openPhases hasInit scripts).map phaseAfterTerminate
      | none => openPhases hasInit scripts }

theorem recvLoop_all_ok (reports : List (SqlResult Unit))
    (h : ∀ r ∈ reports, r = .ok ()) : recvLoop reports = (reports.length, none) := by
  induction reports with
  | nil => rfl
  | cons r rest ih =>
    have hr := h r (List.mem_cons_self r rest)
    subst hr
    have := ih (fun x hx => h x (List.mem_cons_of_mem _ hx))
    simp [recvLoop, this]

theorem recvLoop_none_forall (reports : List (SqlResult Unit))
    (h : (recvLoop reports).2 = none) : ∀ r ∈ reports, r = .ok () := by
  induction reports with
  | nil => intro r hr; exact absurd hr (List.not_mem_nil r)
  | cons r rest ih =>
    intro x hx
    cases r with
    | ok u =>
      cases u
      rcases List.mem_cons.mp hx with rfl | hxr
      · rfl
      · exact ih (by simpa [recvLoop] using h) x hxr
    | error e => simp [recvLoop] at h

theorem recvLoop_some_mem (reports : List (SqlResult Unit)) (e : SqlError)
    (h : (recvLoop reports).2 = some e) : .error e ∈ reports := by
  induction reports with
  | nil => simp [recvLoop] at h
  | cons r rest ih =>
    cases r with
    | ok u =>
      exact List.mem_cons_of_mem _ (ih (by simpa [recvLoop] using h))
    | error e2 =>
      have : e2 = e := by simpa [recvLoop] using h
      subst this
      exact List.mem_cons_self _ _

theorem filterMap_get_range {α : Type} (l : List α) :
    (List.range l.length).filterMap (fun i => l.get? i) = l := by
  induction l with
  | nil => rfl
  | cons a t ih =>
    rw [List.length_cons, List.range_succ_eq_map, List.filterMap_cons]
    simp only [List.get?_cons_zero, List.filterMap_map]
    have hcomp : ((fun i => (a :: t).get? i) ∘ Nat.succ) = fun i => t.get? i := by
      funext i
      rfl
    rw [hcomp, ih]

theorem openArrived_perm (hasInit : Bool) (scripts : List WorkerScript)
    (arrival : List Nat) (hperm : arrival.Perm (List.range scripts.length)) :
    (openArrived hasInit scripts arrival).Perm (openReports hasInit scripts) := by
  have hlen : (openReports hasInit scripts).length = scripts.length := by
    simp [openReports]
  have h1 := hperm.filterMap (fun i => (openReports hasInit scripts).get? i)
  rw [openArrived]
  have h2 : (List.range scripts.length).filterMap
      (fun i => (openReports hasInit scripts).get? i) = openReports hasInit scripts := by
    rw [← hlen]
    exact filterMap_get_range _
  rw [h2] at h1
  exact h1

/-- For claim C3: open spawns exactly one Worker per configured connection;
each worker runs the configured init function exactly once when its connection
opened and not at all otherwise; when every worker reports success, open reads
all the reports and returns the handle; when any worker reports failure, open
returns an error actually reported by one of the workers instead of a
handle. -/
theorem open_startup_protocol (scripts : List WorkerScript) (arrival : List Nat)
    (hperm : arrival.Perm (List.range scripts.length)) :
    (openDB true scripts arrival).spawned = scripts.length
    ∧ (openDB true scripts arrival).initRuns =
        scripts.map (fun s => match s.connOpen with
          | .ok _ => 1
          | .error _ => 0)
    ∧ ((∀ s ∈ scripts, startupReport true s = .ok ()) →
        (openDB true scripts arrival).result = .ok ()
        ∧ (openDB true scripts arrival).reportsRead = scripts.length)
    ∧ ((∃ s ∈ scripts, startupReport true s ≠ .ok ()) →
        ∃ e, (∃ s ∈ scripts, startupReport true s = .error e)
          ∧ (openDB true scripts arrival).result = .error e) := by
  have hperm2 := openArrived_perm true scripts arrival hperm
  refine ⟨rfl, ?_, ?_, ?_⟩
  · apply List.map_congr_left
    intro s _
    cases h : s.connOpen with
    | error e => simp [workerStartup, h]
    | ok u => cases h2 : s.initResult <;> simp [workerStartup, h, h2]
  · intro h
    have hall : ∀ r ∈ openArrived true scripts arrival, r = .ok () := by
      intro r hr
      have : r ∈ openReports true scripts := hperm2.mem_iff.mp hr
      obtain ⟨s, hs, rfl⟩ := List.mem_map.mp this
      exact h s hs
    have hrl := recvLoop_all_ok _ hall
    have hlen : (openArrived true scripts arrival).length = scripts.length := by
      rw [hperm2.length_eq]
      simp [openReports]
    constructor
    · simp only [openDB, hrl]
    · simp only [openDB, hrl, hlen]
  · intro h
    obtain ⟨s, hs, hne⟩ := h
    cases hres : (recvLoop (openArrived true scripts arrival)).2 with
    | none =>
      exfalso
      apply hne
      have hall := recvLoop_none_forall _ hres
      apply hall
      apply hperm2.mem_iff.mpr
      exact List.mem_map_of_mem _ hs
    | some e =>
      refine ⟨e, ?_, ?_⟩
      · have hmem : Except.error e ∈ openArrived true scripts arrival :=
          recvLoop_some_mem _ e hres
        have : Except.error e ∈ openReports true scripts := hperm2.mem_iff.mp hmem
        obtain ⟨s2, hs2, heq⟩ := List.mem_map.mp this
        exact ⟨s2, hs2, heq⟩
      · simp only [openDB, hres]

/-- Witness for C3: a pool of one worker whose connection and init both succeed
makes open return the handle after reading the single report. -/
theorem open_startup_protocol_witness :
    (openDB true [⟨.ok (), .ok ()⟩] [0]).result = .ok ()
    ∧ (openDB true [⟨.ok (), .ok ()⟩] [0]).reportsRead = 1 :=
  (open_startup_protocol [⟨.ok (), .ok ()⟩] [0] (by decide)).2.2.1 (by decide)

/-- Counterexample to claim C2 as stated: with a pool of two workers where
worker 0 succeeds at startup (it enters the serving loop) and worker 1 fails to
open its connection, open returns Err — yet a Terminate message is delivered
and no worker thread remains alive when open returns, because the error return
drops the already-constructed Database value, whose Drop signals and joins the
workers. -/
theorem open_err_survivor_shutdown_cex :
    (openDB true [⟨.ok (), .ok ()⟩, ⟨.error (.other 7), .ok ()⟩] [1, 0]).result =
      .error (.other 7)
    ∧ (workerStartup true ⟨.ok (), .ok ()⟩).2.2 = .serving
    ∧ (openDB true [⟨.ok (), .ok ()⟩, ⟨.error (.other 7), .ok ()⟩] [1, 0]).terminatesSent = 1
    ∧ (openDB true [⟨.ok (), .ok ()⟩, ⟨.error (.other 7), .ok ()⟩] [1, 0]).aliveAfter = 0 := by
  decide

/-- For claim C2 as amended: whenever open returns an error, the drop of the
internally constructed Database value has sent one Terminate per worker that
entered the serving loop and joined every worker thread, so no worker thread is
alive when open returns. -/
theorem open_err_no_worker_survives (hasInit : Bool) (scripts : List WorkerScript)
    (arrival : List Nat) (e : SqlError)
    (herr : (openDB hasInit scripts arrival).result = .error e) :
    (openDB hasInit scripts arrival).aliveAfter = 0
    ∧ (openDB hasInit scripts arrival).terminatesSent = servingTally hasInit scripts := by
  cases hres : (recvLoop (openArrived hasInit scripts arrival)).2 with
  | none =>
    exfalso
    rw [openDB] at herr
    simp only [hres] at herr
    exact Except.noConfusion herr
  | some e2 =>
    constructor
    · simp only [OpenOutcome.aliveAfter, openDB, hres]
      rw [List.length_eq_zero]
      rw [List.filter_eq_nil_iff]
      intro p hp
      obtain ⟨q, _, rfl⟩ := List.mem_map.mp hp
      cases q <;> simp [phaseAfterTerminate, WorkerPhase.alive]
    · simp only [openDB, hres]

/-- Witness for the amended C2: the concrete two-worker pool with one failing
worker ends with zero live worker threads and one Terminate sent. -/
theorem open_err_no_worker_survives_witness :
    (openDB true [⟨.ok (), .ok ()⟩, ⟨.error (.other 7), .ok ()⟩] [1, 0]).aliveAfter = 0
    ∧ (openDB true [⟨.ok (), .ok ()⟩, ⟨.error (.other 7), .ok ()⟩] [1, 0]).terminatesSent =
        servingTally true [⟨.ok (), .ok ()⟩, ⟨.error (.other 7), .ok ()⟩] :=
  open_err_no_worker_survives true [⟨.ok (), .ok ()⟩, ⟨.error (.other 7), .ok ()⟩]
    [1, 0] (.other 7) (by decide)

end Jimaku
